import Mathlib

/-!
Verification of the EcoFlow BLE protocol library (`custom_components/ef_ble/eflib`).

Bytes are modelled as `List Nat` (every element produced by the Python `bytes`
type is below 256; the CRC primitives mask their byte input accordingly, which
is a no-op on actual bytes).  Fallible code returns `Option`/`Except`.
External collaborators (the AES cipher, the protobuf decoders) are passed in
as explicit function parameters; everything else is translated directly from
the source files.
-/

namespace EfBle

/-! ## crc.py — CRC-8/CCITT (polynomial 0x07) and CRC-16/ARC (polynomial
0x8005, reflected input/output, init 0, no final xor), the two configurations
instantiated from the external `crc` library. -/

/-- One bit step of the MSB-first CRC-8 with polynomial 0x07, on an 8-bit state. -/
def crc8Bit (c : Nat) : Nat :=
  if c / 128 % 2 = 1 then ((c * 2) ^^^ 0x07) % 256 else (c * 2) % 256

/-- One byte step of CRC-8/CCITT (input bytes are below 256; the mask records that). -/
def crc8Byte (c b : Nat) : Nat :=
  crc8Bit (crc8Bit (crc8Bit (crc8Bit (crc8Bit (crc8Bit (crc8Bit (crc8Bit (c ^^^ (b % 256)))))))))

/-- `crc8(data)` from crc.py: CRC-8/CCITT checksum, init 0. -/
def crc8 (data : List Nat) : Nat := data.foldl crc8Byte 0

/-- One bit step of the reflected CRC-16 with polynomial 0x8005 (reflected: 0xA001). -/
def crc16Bit (c : Nat) : Nat :=
  if c % 2 = 1 then (c / 2) ^^^ 0xA001 else c / 2

/-- One byte step of CRC-16/ARC. -/
def crc16Byte (c b : Nat) : Nat :=
  crc16Bit (crc16Bit (crc16Bit (crc16Bit (crc16Bit (crc16Bit (crc16Bit (crc16Bit (c ^^^ (b % 256)))))))))

/-- `crc16(data)` from crc.py: CRC-16/ARC checksum, init 0, no final xor. -/
def crc16 (data : List Nat) : Nat := data.foldl crc16Byte 0

/-! ## Byte packing helpers — `struct.pack`/`struct.unpack` little-endian. -/

/-- `struct.pack('<H', n)` for `n < 2^16`. -/
def u16le (n : Nat) : List Nat := [n % 256, n / 256 % 256]

/-- `struct.pack('<L', n)` for `n < 2^32`. -/
def u32le (n : Nat) : List Nat :=
  [n % 256, n / 256 % 256, n / 65536 % 256, n / 16777216 % 256]

/-- `data[i]` on Python bytes (all uses below are guarded by a length check). -/
def byteAt (data : List Nat) (i : Nat) : Nat := data.getD i 0

/-- `struct.unpack('<H', bytes([a, b]))[0]`. -/
def readU16 (a b : Nat) : Nat := a + 256 * b

/-- `struct.unpack('<L', bytes([a, b, c, d]))[0]`. -/
def readU32 (a b c d : Nat) : Nat := a + 256 * b + 65536 * c + 16777216 * d

/-! ## packet.py — the inner business frame ("Packet"). -/

/-- Inner frame fields, in the order of `Packet.__init__`. -/
structure Packet where
  src : Nat
  dst : Nat
  cmd_set : Nat
  cmd_id : Nat
  payload : List Nat
  dsrc : Nat
  ddst : Nat
  version : Nat
  seq : Nat
  product_id : Int
  deriving DecidableEq, Repr

/-- `Packet.productByte`: 0x0d for a non-negative product id, 0x0c otherwise. -/
def Packet.productByte (p : Packet) : Nat :=
  if p.product_id ≥ 0 then 0x0d else 0x0c

/-- Everything `Packet.toBytes` accumulates before the trailing CRC-16:
prefix 0xAA, version, payload length (u16 LE), header CRC-8, product byte,
sequence (u32 LE), two static zero bytes, the six routing/command bytes and
the payload. -/
def Packet.toBytesBody (p : Packet) : List Nat :=
  [0xAA, p.version] ++ u16le p.payload.length
    ++ [crc8 ([0xAA, p.version] ++ u16le p.payload.length)]
    ++ [p.productByte] ++ u32le p.seq
    ++ [0x00, 0x00]
    ++ [p.src, p.dst, p.dsrc, p.ddst, p.cmd_set, p.cmd_id]
    ++ p.payload

/-- `Packet.toBytes`: the body followed by its CRC-16 (u16 LE). -/
def Packet.toBytes (p : Packet) : List Nat :=
  p.toBytesBody ++ u16le (crc16 p.toBytesBody)

/-- `Packet.fromBytes`: fails when shorter than 20 bytes, on a wrong 0xAA
prefix, on a failing whole-frame CRC-16 (checked only for version 3) or on a
failing header CRC-8; otherwise extracts the fields.  The payload is the slice
`data[18:18+payload_length]`; when version is 19 and the payload ends in
`bb bb` those two bytes are stripped.  The product id cannot be recovered from
the byte stream and is left at 0. -/
def Packet.fromBytes (data : List Nat) : Option Packet :=
  if data.length < 20 then none
  else if byteAt data 0 ≠ 0xAA then none
  else
    let version := byteAt data 1
    let payload_length := readU16 (byteAt data 2) (byteAt data 3)
    if version = 3 ∧
        crc16 (data.take (data.length - 2)) ≠
          readU16 (byteAt data (data.length - 2)) (byteAt data (data.length - 1)) then none
    else if crc8 (data.take 4) ≠ byteAt data 4 then none
    else
      let seq := readU32 (byteAt data 6) (byteAt data 7) (byteAt data 8) (byteAt data 9)
      let src := byteAt data 12
      let dst := byteAt data 13
      let dsrc := byteAt data 14
      let ddst := byteAt data 15
      let cmd_set := byteAt data 16
      let cmd_id := byteAt data 17
      let payload0 := if payload_length > 0 then (data.drop 18).take payload_length else []
      let payload :=
        if version = 19 ∧ payload0.drop (payload0.length - 2) = [0xBB, 0xBB] then
          payload0.take (payload0.length - 2)
        else payload0
      some ⟨src, dst, cmd_set, cmd_id, payload, dsrc, ddst, version, seq, 0⟩

/-! ## encpacket.py — the outer transport frame ("EncPacket"). -/

/-- PKCS#7 padding to the AES block size of 16 (`Crypto.Util.Padding.pad`). -/
def pad16 (data : List Nat) : List Nat :=
  data ++ List.replicate (16 - data.length % 16) (16 - data.length % 16)

/-- Outer frame fields, in the order of `EncPacket.__init__`. -/
structure EncPacket where
  frame_type : Nat
  payload_type : Nat
  payload : List Nat
  cmd_id : Nat
  version : Nat
  seq : Nat
  enc_key : Option (List Nat)
  iv : Option (List Nat)
  deriving DecidableEq, Repr

inductive EncErr where
  | typeError
  deriving DecidableEq, Repr

/-- `EncPacket.encryptPayload`.  The AES-CBC primitive is the external
pycryptodome library, passed in as `aes key iv plaintext`.  The source returns
the payload unmodified only when BOTH `enc_key` and `iv` are `None`
(`if self._enc_key == None and self._iv == None`); with a key but `iv = None`,
`AES.new(key, MODE_CBC, None)` falls back to a freshly generated random IV
(modelled by the explicit `freshIV` argument), and with an IV but no key
`AES.new(None, ...)` raises a `TypeError`. -/
def EncPacket.encryptPayload (aes : List Nat → List Nat → List Nat → List Nat)
    (freshIV : List Nat) (p : EncPacket) : Except EncErr (List Nat) :=
  match p.enc_key, p.iv with
  | none, none => .ok p.payload
  | none, some _ => .error .typeError
  | some k, none => .ok (aes k freshIV (pad16 p.payload))
  | some k, some iv => .ok (aes k iv (pad16 p.payload))

/-- The framing part of `EncPacket.toBytes`, applied to the (possibly
encrypted) payload bytes: prefix 5A 5A, frame type shifted into the high
nibble, marker byte 0x01, little-endian u16 length (payload plus 2 bytes of
CRC), the payload, and a trailing CRC-16 over everything before it. -/
def encFrameBytes (frame_type : Nat) (payload : List Nat) : List Nat :=
  let data := [0x5A, 0x5A, frame_type <<< 4, 0x01] ++ u16le (payload.length + 2) ++ payload
  data ++ u16le (crc16 data)

/-- `EncPacket.toBytes`: encrypt the payload, then frame it. -/
def EncPacket.toBytes (aes : List Nat → List Nat → List Nat → List Nat)
    (freshIV : List Nat) (p : EncPacket) : Except EncErr (List Nat) :=
  (p.encryptPayload aes freshIV).map (encFrameBytes p.frame_type)

/-! ## connection.py — `getEcdhTypeSize`. -/

/-- `getEcdhTypeSize` from connection.py.  NOTE: the source's `case 3,4:` arm
is a Python sequence pattern — it matches the 2-element tuple `(3, 4)` and
never an integer — so for the integer argument the live arms are 1, 2 and the
default; curve types 3 and 4 fall through to 40. -/
def getEcdhTypeSize (curve_num : Nat) : Nat :=
  match curve_num with
  | 1 => 52
  | 2 => 56
  | _ => 40

/-- What the dead `case 3,4: return 64` arm would contribute if it were
written `case 3 | 4:`, i.e. the four curve-type-to-length mappings the spec
describes. -/
def getEcdhTypeSizeIntended (curve_num : Nat) : Nat :=
  match curve_num with
  | 1 => 52
  | 2 => 56
  | 3 => 64
  | 4 => 64
  | _ => 40

/-! ## connection.py — `parseEncPackets`.

The decrypt-and-decode step of the loop body (`decryptSession` followed by
`Packet.fromBytes`) involves the external AES library and the session key; the
loop is parametric in that step (`process`): `.error` models an exception
escaping from `decryptSession` (e.g. a padding error), `.ok none` a payload
`Packet.fromBytes` rejects (skipped), `.ok (some a)` a decoded packet. -/

inductive PepErr where
  /-- `EncPacketParseError`: total data shorter than 8 bytes. -/
  | tooSmall
  /-- `struct.error`: `struct.unpack('<H', header[4:6])` on fewer than 2 bytes
  (the loop re-enters with 2 to 5 leftover bytes). -/
  | structError
  /-- `NameError`: the CRC-failure log call references the undefined name
  `payload_length`, so the `continue` is never reached. -/
  | nameError
  /-- an exception escaping from the decrypt/decode step. -/
  | processError
  deriving DecidableEq, Repr

/-- The `while data:` loop of `Connection.parseEncPackets`.  Mirrors the
source: stop on empty data; return the packets collected so far on a prefix
mismatch; read the little-endian length at bytes 4..5 (`struct.error` when
fewer than 6 bytes remain); when the declared end exceeds the available bytes
buffer the remainder and stop; otherwise split off the frame, check its
CRC-16 (the failure branch raises `NameError`, see `PepErr.nameError`),
process the payload and continue with the rest.  Returns the collected
packets together with the new partial-frame buffer. -/
def pepLoop (process : List Nat → Except PepErr (Option α)) (data : List Nat)
    (packets : List α) : Except PepErr (List α × List Nat) :=
  if data.isEmpty then .ok (packets, [])
  else if ¬ [0x5A, 0x5A].isPrefixOf data then .ok (packets, [])
  else if h6 : data.length < 6 then .error .structError
  else
    let header := data.take 6
    let data_end := 6 + readU16 (byteAt data 4) (byteAt data 5)
    if data_end > data.length then .ok (packets, data)
    else
      let payload_data := (data.take (data_end - 2)).drop 6
      let payload_crc := (data.take data_end).drop (data_end - 2)
      let rest := data.drop data_end
      if crc16 (header ++ payload_data) ≠
          readU16 (byteAt payload_crc 0) (byteAt payload_crc 1) then .error .nameError
      else
        match process payload_data with
        | .error _ => .error .processError
        | .ok none => pepLoop process rest packets
        | .ok (some pk) => pepLoop process rest (packets ++ [pk])
  termination_by data.length
  decreasing_by
    all_goals simp only [List.length_drop]; omega

/-- `Connection.parseEncPackets`: prepend (and clear) the partial-frame
buffer, reject deliveries of fewer than 8 total bytes
(`EncPacketParseError`), then run the frame loop.  The second component is
the value of `self._enc_packet_buffer` afterwards (the buffer is cleared
before the length check, so it is empty whenever an exception escapes). -/
def parseEncPackets (process : List Nat → Except PepErr (Option α))
    (buffer data : List Nat) : Except PepErr (List α) × List Nat :=
  let d := buffer ++ data
  if d.length < 8 then (.error .tooSmall, [])
  else
    match pepLoop process d [] with
    | .ok (packets, buf) => (.ok packets, buf)
    | .error e => (.error e, [])

/-! ## connection.py — `autoAuthenticationHandler`. -/

inductive AuthOutcome where
  /-- proceed to `listenForData`. -/
  | listening
  /-- `AuthFailedError` raised (fatal; nothing in the handler retries). -/
  | authFailed
  /-- `PacketReceiveError` raised (no packet decoded from the response). -/
  | receiveError
  deriving DecidableEq, Repr

/-- `Connection.autoAuthenticationHandler`, as its decision on the decoded
packet list: fewer than one packet raises `PacketReceiveError`; a first
payload different from `b'\x00'` logs and raises `AuthFailedError`; exactly
`b'\x00'` continues to `listenForData`. -/
def autoAuthenticationHandler (packets : List Packet) : AuthOutcome :=
  match packets with
  | [] => .receiveError
  | p :: _ => if p.payload ≠ [0x00] then .authFailed else .listening

/-! ## eflib/__init__.py — `NewDevice` dispatch over the registered device
variants (devices/dpu.py and devices/shp2.py). -/

/-- A registered device variant: a tag for the module and its serial-number
prefix (`Device.SN_PREFIX`). -/
structure DeviceVariant where
  tag : String
  snPref : List Nat
  deriving DecidableEq, Repr

/-- `Device.check(sn)` (identical in both device modules):
`sn.startswith(Device.SN_PREFIX)`. -/
def DeviceVariant.check (v : DeviceVariant) (sn : List Nat) : Bool :=
  v.snPref.isPrefixOf sn

/-- devices/dpu.py: Delta Pro Ultra, `SN_PREFIX = b'Y711'`. -/
def dpu : DeviceVariant := ⟨"Delta Pro Ultra", [0x59, 0x37, 0x31, 0x31]⟩

/-- devices/shp2.py: Smart Home Panel 2, `SN_PREFIX = b'HD31'`. -/
def shp2 : DeviceVariant := ⟨"Smart Home Panel 2", [0x48, 0x44, 0x33, 0x31]⟩

/-- The modules of `eflib.devices` in the order `NewDevice` iterates them. -/
def deviceModules : List DeviceVariant := [dpu, shp2]

/-- `NewDevice`: `none` when the advertisement has no manufacturer-data entry
under `DeviceBase.MANUFACTURER_KEY` (0xB5B5) — that entry is the `Option`
argument; otherwise the serial number is bytes `[1:17)` of the entry, and the
first registered variant whose `check` accepts it is instantiated with the
serial; with no match the serial is logged and no device is returned. -/
def NewDevice (manufacturer_data : Option (List Nat)) :
    Option (DeviceVariant × List Nat) :=
  match manufacturer_data with
  | none => none
  | some man_data =>
    let sn := (man_data.drop 1).take 16
    match deviceModules.find? (fun v => v.check sn) with
    | some v => some (v, sn)
    | none => none

/-! ## MD5 (`hashlib.md5`), needed by `Connection.autoAuthentication`.
Standard RFC 1321 algorithm on 32-bit words modelled as `Nat` modulo 2^32. -/

/-- The 64 MD5 sine-derived round constants. -/
def md5K : List Nat :=
  [0xd76aa478, 0xe8c7b756, 0x242070db, 0xc1bdceee,
   0xf57c0faf, 0x4787c62a, 0xa8304613, 0xfd469501,
   0x698098d8, 0x8b44f7af, 0xffff5bb1, 0x895cd7be,
   0x6b901122, 0xfd987193, 0xa679438e, 0x49b40821,
   0xf61e2562, 0xc040b340, 0x265e5a51, 0xe9b6c7aa,
   0xd62f105d, 0x02441453, 0xd8a1e681, 0xe7d3fbc8,
   0x21e1cde6, 0xc33707d6, 0xf4d50d87, 0x455a14ed,
   0xa9e3e905, 0xfcefa3f8, 0x676f02d9, 0x8d2a4c8a,
   0xfffa3942, 0x8771f681, 0x6d9d6122, 0xfde5380c,
   0xa4beea44, 0x4bdecfa9, 0xf6bb4b60, 0xbebfbc70,
   0x289b7ec6, 0xeaa127fa, 0xd4ef3085, 0x04881d05,
   0xd9d4d039, 0xe6db99e5, 0x1fa27cf8, 0xc4ac5665,
   0xf4292244, 0x432aff97, 0xab9423a7, 0xfc93a039,
   0x655b59c3, 0x8f0ccc92, 0xffeff47d, 0x85845dd1,
   0x6fa87e4f, 0xfe2ce6e0, 0xa3014314, 0x4e0811a1,
   0xf7537e82, 0xbd3af235, 0x2ad7d2bb, 0xeb86d391]

/-- The 64 MD5 per-round left-rotation amounts. -/
def md5S : List Nat :=
  [7, 12, 17, 22, 7, 12, 17, 22, 7, 12, 17, 22, 7, 12, 17, 22,
   5, 9, 14, 20, 5, 9, 14, 20, 5, 9, 14, 20, 5, 9, 14, 20,
   4, 11, 16, 23, 4, 11, 16, 23, 4, 11, 16, 23, 4, 11, 16, 23,
   6, 10, 15, 21, 6, 10, 15, 21, 6, 10, 15, 21, 6, 10, 15, 21]

/-- 32-bit left rotation (for `x < 2^32` and `n ≤ 32`). -/
def rotl32 (x n : Nat) : Nat := (x * 2 ^ n + x / 2 ^ (32 - n)) % 4294967296

/-- One MD5 round applied to the state `(a, b, c, d)` with message words `M`. -/
def md5Round (M : List Nat) (st : Nat × Nat × Nat × Nat) (i : Nat) :
    Nat × Nat × Nat × Nat :=
  let a := st.1
  let b := st.2.1
  let c := st.2.2.1
  let d := st.2.2.2
  let fg : Nat × Nat :=
    if i < 16 then ((b &&& c) ||| ((b ^^^ 0xFFFFFFFF) &&& d), i)
    else if i < 32 then ((d &&& b) ||| ((d ^^^ 0xFFFFFFFF) &&& c), (5 * i + 1) % 16)
    else if i < 48 then (b ^^^ c ^^^ d, (3 * i + 5) % 16)
    else (c ^^^ (b ||| (d ^^^ 0xFFFFFFFF)), (7 * i) % 16)
  let tmp := (a + fg.1 + md5K.getD i 0 + M.getD fg.2 0) % 4294967296
  (d, (b + rotl32 tmp (md5S.getD i 0)) % 4294967296, b, c)

/-- Group bytes into little-endian 32-bit words. -/
def bytesToWords32 : List Nat → List Nat
  | b0 :: b1 :: b2 :: b3 :: rest => readU32 b0 b1 b2 b3 :: bytesToWords32 rest
  | _ => []

/-- One 64-byte MD5 block: 64 rounds, then add the previous state. -/
def md5Block (st : Nat × Nat × Nat × Nat) (blockBytes : List Nat) :
    Nat × Nat × Nat × Nat :=
  let M := bytesToWords32 blockBytes
  let r := (List.range 64).foldl (md5Round M) st
  ((st.1 + r.1) % 4294967296, (st.2.1 + r.2.1) % 4294967296,
   (st.2.2.1 + r.2.2.1) % 4294967296, (st.2.2.2 + r.2.2.2) % 4294967296)

/-- `struct.pack('<Q', n)` for `n < 2^64`. -/
def u64le (n : Nat) : List Nat :=
  [n % 256, n / 256 % 256, n / 65536 % 256, n / 16777216 % 256,
   n / 4294967296 % 256, n / 1099511627776 % 256,
   n / 281474976710656 % 256, n / 72057594037927936 % 256]

/-- MD5 padding: a 0x80 byte, zeros to 56 mod 64, the bit length as u64 LE. -/
def md5Pad (msg : List Nat) : List Nat :=
  msg ++ [0x80] ++ List.replicate ((56 + 64 - (msg.length + 1) % 64) % 64) 0
    ++ u64le (8 * msg.length)

/-- Split a byte list into 64-byte chunks (structural recursion on a fuel
bound by the length: each step consumes at least one byte). -/
def chunks64Fuel : Nat → List Nat → List (List Nat)
  | 0, _ => []
  | _, [] => []
  | fuel + 1, a :: l => (a :: l).take 64 :: chunks64Fuel fuel ((a :: l).drop 64)

/-- Split a byte list into 64-byte chunks. -/
def chunks64 (l : List Nat) : List (List Nat) := chunks64Fuel l.length l

/-- `hashlib.md5(msg).digest()` as 16 bytes. -/
def md5 (msg : List Nat) : List Nat :=
  let final := (chunks64 (md5Pad msg)).foldl md5Block
    (0x67452301, 0xefcdab89, 0x98badcfe, 0x10325476)
  u32le final.1 ++ u32le final.2.1 ++ u32le final.2.2.1 ++ u32le final.2.2.2

/-- One uppercase hex digit, as its ASCII code. -/
def upperHexNibble (d : Nat) : Nat := if d < 10 then 48 + d else 55 + d

/-- `"{:02X}".format(b)` as two ASCII codes. -/
def upperHexByte (b : Nat) : List Nat := [upperHexNibble (b / 16), upperHexNibble (b % 16)]

/-- `("".join("{:02X}".format(c) for c in data)).encode('ASCII')`. -/
def upperHexBytes (data : List Nat) : List Nat := (data.map upperHexByte).flatten

/-- `s.encode('ASCII')` (valid when every character is below 128). -/
def asciiBytes (s : String) : List Nat := s.toList.map Char.toNat

/-- The authentication payload built by `Connection.autoAuthentication`:
`hashlib.md5((user_id + dev_sn).encode('ASCII')).digest()`, hex-encoded
uppercase and ASCII-encoded. -/
def autoAuthPayload (user_id dev_sn : String) : List Nat :=
  upperHexBytes (md5 (asciiBytes (user_id ++ dev_sn)))

/-! ## devices/shp2.py — `Device.data_parse` telemetry update semantics.

The protobuf messages (`pd303_pb2`) are external generated code; their decoded
shapes are modelled as structures and the two `ParseFromString` decoders are
passed in as functions of the packet payload.  Telemetry values are modelled
as integers — the update logic only ever compares them for equality and
stores them. -/

/-- `load_info` sub-message: repeated per-circuit watt and current values. -/
structure LoadInfo where
  hall1_watt : List Int
  hall1_curr : List Int
  deriving DecidableEq, Repr

/-- `watt_info` sub-message. -/
structure WattInfo where
  grid_watt : Option Int
  ch_watt : List Int
  all_hall_watt : Option Int
  deriving DecidableEq, Repr

/-- `ProtoTime` (the parts `data_parse` reads). -/
structure ProtoTime where
  load_info : Option LoadInfo
  watt_info : Option WattInfo
  deriving DecidableEq, Repr

/-- `errcode` sub-message: a list of 8-byte error-code entries. -/
structure ErrcodeList where
  err_code : List (List Nat)
  deriving DecidableEq, Repr

/-- `backup_incre_info` sub-message (the parts `data_parse` reads). -/
structure BackupIncreInfo where
  errcode : Option ErrcodeList
  backup_bat_per : Option Int
  deriving DecidableEq, Repr

/-- `ProtoPushAndSet` (the parts `data_parse` reads). -/
structure ProtoPushAndSet where
  backup_incre_info : Option BackupIncreInfo
  deriving DecidableEq, Repr

/-- The telemetry fields of the Smart Home Panel 2 device (`Device.__init__`):
12 circuit power/current slots, grid and in-use power, 3 channel power slots,
the error count and the battery level, all starting unknown (the count at 0). -/
@[ext]
structure Shp2State where
  circuit_power : List (Option Int)
  circuit_current : List (Option Int)
  grid_power : Option Int
  in_use_power : Option Int
  channel_power : List (Option Int)
  error_count : Nat
  battery_level : Option Int
  deriving DecidableEq, Repr

/-- The initial state built by `Device.__init__`. -/
def shp2Init : Shp2State :=
  ⟨List.replicate 12 none, List.replicate 12 none, none, none,
   List.replicate 3 none, 0, none⟩

/-- `if stored != w: stored = w; updated = True` on one telemetry slot;
returns the new value and whether it was written. -/
def diffWrite (old : Option Int) (w : Int) : Option Int × Bool :=
  if old ≠ some w then (some w, true) else (old, false)

/-- The same diffing write on the `Nat`-valued error counter. -/
def diffWriteNat (old new : Nat) : Nat × Bool :=
  if old ≠ new then (new, true) else (old, false)

/-- `for i, w in enumerate(values): if stored[i] != w: stored[i] = w; ...` —
index-wise diffing writes of a decoded list into the stored slots (the
decoded list is never longer than the stored one; a longer one would raise
`IndexError` in the source). -/
def diffWriteList : List (Option Int) → List Int → List (Option Int) × Bool
  | olds, [] => (olds, false)
  | [], _ :: _ => ([], false)
  | o :: os, w :: ws =>
    let r1 := diffWrite o w
    let r2 := diffWriteList os ws
    (r1.1 :: r2.1, r1.2 || r2.2)

/-- The `p.HasField('load_info')` block of `data_parse`: diff the circuit
power and current lists. -/
def updateLoad (st : Shp2State) (li : Option LoadInfo) : Shp2State × Bool :=
  match li with
  | none => (st, false)
  | some li =>
    let r1 := diffWriteList st.circuit_power li.hall1_watt
    let r2 := diffWriteList st.circuit_current li.hall1_curr
    ({ st with circuit_power := r1.1, circuit_current := r2.1 }, r1.2 || r2.2)

/-- The `p.HasField('watt_info')` block: diff the grid power (writing 0 when
`grid_watt` is absent), the channel power list, and the in-use power. -/
def updateWatt (st : Shp2State) (wi : Option WattInfo) : Shp2State × Bool :=
  match wi with
  | none => (st, false)
  | some wi =>
    let rg := match wi.grid_watt with
      | some w => diffWrite st.grid_power w
      | none => diffWrite st.grid_power 0
    let rc := diffWriteList st.channel_power wi.ch_watt
    let ri := match wi.all_hall_watt with
      | some w => diffWrite st.in_use_power w
      | none => (st.in_use_power, false)
    ({ st with grid_power := rg.1, channel_power := rc.1, in_use_power := ri.1 },
     rg.2 || rc.2 || ri.2)

/-- The `backup_incre_info` block: count the error codes different from the
all-zero sentinel and diff the counter, then diff the battery level. -/
def updateBackup (st : Shp2State) (info : BackupIncreInfo) : Shp2State × Bool :=
  let re := match info.errcode with
    | some e =>
      diffWriteNat st.error_count
        ((e.err_code.filter (fun x => x ≠ [0, 0, 0, 0, 0, 0, 0, 0])).length)
    | none => (st.error_count, false)
  let rb := match info.backup_bat_per with
    | some b => diffWrite st.battery_level b
    | none => (st.battery_level, false)
  ({ st with error_count := re.1, battery_level := rb.1 }, re.2 || rb.2)

/-- `Device.data_parse` of devices/shp2.py, as a pure function of the stored
telemetry and the incoming packet; returns the new state, the `processed`
flag and the `updated` flag.  Routing: src 0x0B, command set 0x0C; cmd id
0x01 decodes a `ProtoTime`, cmd id 0x20 a `ProtoPushAndSet` (returning early,
unprocessed, when `backup_incre_info` is missing). -/
def shp2DataParse (ptDec : List Nat → ProtoTime) (ppDec : List Nat → ProtoPushAndSet)
    (st : Shp2State) (pkt : Packet) : Shp2State × Bool × Bool :=
  if pkt.src = 0x0B ∧ pkt.cmd_set = 0x0C then
    if pkt.cmd_id = 0x01 then
      let p := ptDec pkt.payload
      let r1 := updateLoad st p.load_info
      let r2 := updateWatt r1.1 p.watt_info
      (r2.1, true, r1.2 || r2.2)
    else if pkt.cmd_id = 0x20 then
      let p := ppDec pkt.payload
      match p.backup_incre_info with
      | none => (st, false, false)
      | some info =>
        let r := updateBackup st info
        (r.1, true, r.2)
    else (st, false, false)
  else (st, false, false)

/-- The callback loop at the end of `data_parse`: when `updated` is set every
registered callback is invoked once, otherwise none (`DeviceBase._callbacks`
is a set — a duplicate-free collection — and `register_callback` adds to it).
The result is the list of invocations performed. -/
def firedCallbacks (callbacks : List α) (updated : Bool) : List α :=
  if updated then callbacks else []

/-- Decidable equality for `Except` results (used to evaluate the decoders on
concrete inputs). -/
instance exceptDecEq {ε α : Type} [DecidableEq ε] [DecidableEq α] : DecidableEq (Except ε α)
  | .error a, .error b =>
    if h : a = b then .isTrue (by rw [h]) else .isFalse (by intro hc; cases hc; exact h rfl)
  | .error _, .ok _ => .isFalse (by intro hc; cases hc)
  | .ok _, .error _ => .isFalse (by intro hc; cases hc)
  | .ok a, .ok b =>
    if h : a = b then .isTrue (by rw [h]) else .isFalse (by intro hc; cases hc; exact h rfl)

/-- A decrypt-and-decode step that succeeds on every payload, returning the
payload itself as the decoded value (used to exercise `parseEncPackets` on
concrete frame streams). -/
def procId : List Nat → Except PepErr (Option (List Nat)) := fun b => .ok (some b)

set_option maxRecDepth 100000

/-! ## Theorems -/

theorem crc8Bit_lt (c : Nat) : crc8Bit c < 256 := by
  unfold crc8Bit
  split
  · exact Nat.mod_lt _ (by norm_num)
  · exact Nat.mod_lt _ (by norm_num)

theorem crc8Byte_lt (c b : Nat) : crc8Byte c b < 256 := crc8Bit_lt _

theorem crc8_lt (data : List Nat) : crc8 data < 256 := by
  unfold crc8
  induction data using List.reverseRecOn with
  | nil => decide
  | append_singleton xs x _ => rw [List.foldl_append]; exact crc8Byte_lt _ _

theorem crc16Bit_lt {c : Nat} (h : c < 65536) : crc16Bit c < 65536 := by
  unfold crc16Bit
  have hd : c / 2 < 32768 := by omega
  split
  · exact Nat.xor_lt_two_pow (n := 16) (by omega) (by norm_num)
  · omega

theorem crc16Byte_lt (c b : Nat) (h : c < 65536) : crc16Byte c b < 65536 := by
  have h0 : c ^^^ (b % 256) < 65536 :=
    Nat.xor_lt_two_pow (n := 16) h (by have := Nat.mod_lt b (y := 256) (by norm_num); omega)
  exact crc16Bit_lt (crc16Bit_lt (crc16Bit_lt (crc16Bit_lt
    (crc16Bit_lt (crc16Bit_lt (crc16Bit_lt (crc16Bit_lt h0)))))))

theorem crc16_lt (data : List Nat) : crc16 data < 65536 := by
  unfold crc16
  induction data using List.reverseRecOn with
  | nil => decide
  | append_singleton xs x ih => rw [List.foldl_append]; exact crc16Byte_lt _ _ ih

/-- CRC-16/ARC standard check value on the ASCII string "123456789". -/
example : crc16 [0x31, 0x32, 0x33, 0x34, 0x35, 0x36, 0x37, 0x38, 0x39] = 0xBB3D := by decide

/-- CRC-8 (poly 0x07) standard check value on the ASCII string "123456789". -/
example : crc8 [0x31, 0x32, 0x33, 0x34, 0x35, 0x36, 0x37, 0x38, 0x39] = 0xF4 := by decide

theorem readU16_u16le {n : Nat} (h : n < 65536) :
    readU16 ((u16le n).getD 0 0) ((u16le n).getD 1 0) = n := by
  simp only [u16le, readU16, List.getD_cons_zero, List.getD_cons_succ]
  have : n / 256 < 256 := by omega
  rw [Nat.mod_eq_of_lt this]
  omega

theorem u16le_length (n : Nat) : (u16le n).length = 2 := rfl

theorem u32le_length (n : Nat) : (u32le n).length = 4 := rfl

theorem readU16_mod_div {n : Nat} (h : n < 65536) : readU16 (n % 256) (n / 256 % 256) = n := by
  simp only [readU16]; omega

theorem readU32_mod_div {n : Nat} (h : n < 4294967296) :
    readU32 (n % 256) (n / 256 % 256) (n / 65536 % 256) (n / 16777216 % 256) = n := by
  simp only [readU32]; omega

theorem Packet.toBytesBody_eq (p : Packet) :
    p.toBytesBody =
      0xAA :: p.version :: (p.payload.length % 256) :: (p.payload.length / 256 % 256) ::
      crc8 [0xAA, p.version, p.payload.length % 256, p.payload.length / 256 % 256] ::
      p.productByte :: (p.seq % 256) :: (p.seq / 256 % 256) :: (p.seq / 65536 % 256) ::
      (p.seq / 16777216 % 256) :: 0x00 :: 0x00 ::
      p.src :: p.dst :: p.dsrc :: p.ddst :: p.cmd_set :: p.cmd_id :: p.payload := by
  simp [Packet.toBytesBody, u16le, u32le]

theorem Packet.toBytesBody_length (p : Packet) :
    p.toBytesBody.length = 18 + p.payload.length := by
  rw [Packet.toBytesBody_eq]; simp; omega

theorem Packet.toBytes_length (p : Packet) :
    p.toBytes.length = 20 + p.payload.length := by
  simp [Packet.toBytes, Packet.toBytesBody_length, u16le]; omega

theorem Packet.fromBytes_toBytes (p : Packet) (hver : p.version = 3)
    (hsrc : p.src < 256) (hdst : p.dst < 256) (hdsrc : p.dsrc < 256) (hddst : p.ddst < 256)
    (hcs : p.cmd_set < 256) (hci : p.cmd_id < 256)
    (hseq : p.seq < 4294967296) (hplen : p.payload.length < 65536) :
    Packet.fromBytes p.toBytes =
      some ⟨p.src, p.dst, p.cmd_set, p.cmd_id, p.payload, p.dsrc, p.ddst, p.version, p.seq, 0⟩ := by
  have hc : crc16 p.toBytesBody < 65536 := crc16_lt _
  have hlen : p.toBytes.length = 20 + p.payload.length := p.toBytes_length
  have hcons : p.toBytes =
      0xAA :: p.version :: (p.payload.length % 256) :: (p.payload.length / 256 % 256) ::
      crc8 [0xAA, p.version, p.payload.length % 256, p.payload.length / 256 % 256] ::
      p.productByte :: (p.seq % 256) :: (p.seq / 256 % 256) :: (p.seq / 65536 % 256) ::
      (p.seq / 16777216 % 256) :: 0x00 :: 0x00 ::
      p.src :: p.dst :: p.dsrc :: p.ddst :: p.cmd_set :: p.cmd_id ::
      (p.payload ++ u16le (crc16 p.toBytesBody)) := by
    rw [Packet.toBytes, Packet.toBytesBody_eq]; simp
  have g0 : byteAt p.toBytes 0 = 0xAA := by rw [hcons]; rfl
  have g1 : byteAt p.toBytes 1 = p.version := by rw [hcons]; rfl
  have g2 : byteAt p.toBytes 2 = p.payload.length % 256 := by rw [hcons]; rfl
  have g3 : byteAt p.toBytes 3 = p.payload.length / 256 % 256 := by rw [hcons]; rfl
  have g4 : byteAt p.toBytes 4 =
      crc8 [0xAA, p.version, p.payload.length % 256, p.payload.length / 256 % 256] := by
    rw [hcons]; rfl
  have g6 : byteAt p.toBytes 6 = p.seq % 256 := by rw [hcons]; rfl
  have g7 : byteAt p.toBytes 7 = p.seq / 256 % 256 := by rw [hcons]; rfl
  have g8 : byteAt p.toBytes 8 = p.seq / 65536 % 256 := by rw [hcons]; rfl
  have g9 : byteAt p.toBytes 9 = p.seq / 16777216 % 256 := by rw [hcons]; rfl
  have g12 : byteAt p.toBytes 12 = p.src := by rw [hcons]; rfl
  have g13 : byteAt p.toBytes 13 = p.dst := by rw [hcons]; rfl
  have g14 : byteAt p.toBytes 14 = p.dsrc := by rw [hcons]; rfl
  have g15 : byteAt p.toBytes 15 = p.ddst := by rw [hcons]; rfl
  have g16 : byteAt p.toBytes 16 = p.cmd_set := by rw [hcons]; rfl
  have g17 : byteAt p.toBytes 17 = p.cmd_id := by rw [hcons]; rfl
  have htake2 : p.toBytes.take (p.toBytes.length - 2) = p.toBytesBody := by
    rw [Packet.toBytes, List.length_append, u16le_length, Nat.add_sub_cancel]
    exact List.take_left _ _
  have gL2 : byteAt p.toBytes (p.toBytes.length - 2) = crc16 p.toBytesBody % 256 := by
    rw [byteAt, Packet.toBytes, List.length_append, u16le_length, Nat.add_sub_cancel,
      List.getD_append_right _ _ _ _ (Nat.le_refl _), Nat.sub_self]
    rfl
  have gL1 : byteAt p.toBytes (p.toBytes.length - 1) = crc16 p.toBytesBody / 256 % 256 := by
    have h1 : p.toBytes.length - 1 = p.toBytesBody.length + 1 := by
      rw [Packet.toBytes, List.length_append, u16le_length]; omega
    rw [byteAt, h1, Packet.toBytes, List.getD_append_right _ _ _ _ (Nat.le_add_right _ _),
      Nat.add_sub_cancel_left]
    rfl
  have htake4 : p.toBytes.take 4 =
      [0xAA, p.version, p.payload.length % 256, p.payload.length / 256 % 256] := by
    rw [hcons]; rfl
  have hdrop18 : p.toBytes.drop 18 = p.payload ++ u16le (crc16 p.toBytesBody) := by
    rw [hcons]; rfl
  have hrd16 : readU16 (p.payload.length % 256) (p.payload.length / 256 % 256) =
      p.payload.length := readU16_mod_div hplen
  have hrdc : readU16 (crc16 p.toBytesBody % 256) (crc16 p.toBytesBody / 256 % 256) =
      crc16 p.toBytesBody := readU16_mod_div hc
  have hrd32 : readU32 (p.seq % 256) (p.seq / 256 % 256) (p.seq / 65536 % 256)
      (p.seq / 16777216 % 256) = p.seq := readU32_mod_div hseq
  simp only [Packet.fromBytes]
  rw [g0, g1, g2, g3, g4, g6, g7, g8, g9, g12, g13, g14, g15, g16, g17, htake2, gL2, gL1,
    htake4, hrd16, hrdc, hrd32, hdrop18, hver]
  rw [if_neg (by omega), if_neg (by simp), if_neg (by simp), if_neg (by simp)]
  rcases Nat.eq_zero_or_pos p.payload.length with hp0 | hppos
  · rw [if_neg (by omega)]
    rw [List.length_eq_zero] at hp0
    simp [hp0]
  · rw [if_pos hppos, List.take_left]
    rw [if_neg (by rintro ⟨h19, -⟩; omega)]

theorem encFrameBytes_eq (ft : Nat) (payload : List Nat) :
    encFrameBytes ft payload =
      0x5A :: 0x5A :: (ft <<< 4) :: 0x01 :: ((payload.length + 2) % 256) ::
      ((payload.length + 2) / 256 % 256) ::
      (payload ++ u16le (crc16 ([0x5A, 0x5A, ft <<< 4, 0x01]
        ++ u16le (payload.length + 2) ++ payload))) := by
  simp [encFrameBytes, u16le]

theorem encFrameBytes_length (ft : Nat) (payload : List Nat) :
    (encFrameBytes ft payload).length = 8 + payload.length := by
  rw [encFrameBytes_eq]; simp [u16le]; omega

theorem pepLoop_nil (process : List Nat → Except PepErr (Option α)) (acc : List α) :
    pepLoop process [] acc = .ok (acc, []) := by
  rw [pepLoop.eq_def]; rfl

theorem take_add_six {β : Type} (m : Nat) (a0 a1 a2 a3 a4 a5 : β) (l : List β) :
    (a0 :: a1 :: a2 :: a3 :: a4 :: a5 :: l).take (m + 6) =
      a0 :: a1 :: a2 :: a3 :: a4 :: a5 :: l.take m := rfl

theorem drop_add_six {β : Type} (m : Nat) (a0 a1 a2 a3 a4 a5 : β) (l : List β) :
    (a0 :: a1 :: a2 :: a3 :: a4 :: a5 :: l).drop (m + 6) = l.drop m := rfl

/-- A delivery that opens with a well-formed 6-byte header whose declared end
exceeds the available bytes is buffered unchanged. -/
theorem pepLoop_headerBuffered (process : List Nat → Except PepErr (Option α))
    (b2 l0 l1 : Nat) (tail : List Nat) (acc : List α)
    (hgt : tail.length + 6 < 6 + readU16 l0 l1) :
    pepLoop process (0x5A :: 0x5A :: b2 :: 0x01 :: l0 :: l1 :: tail) acc =
      .ok (acc, 0x5A :: 0x5A :: b2 :: 0x01 :: l0 :: l1 :: tail) := by
  rw [pepLoop.eq_def]
  rw [if_neg (by simp), if_neg (by simp [List.isPrefixOf])]
  rw [dif_neg (by simp)]
  rw [if_pos (by simpa [byteAt] using hgt)]

/-- A complete prefix of a frame that includes the 6-byte header but not the
whole frame is buffered unchanged (the declared end exceeds the data). -/
theorem pepLoop_incomplete (process : List Nat → Except PepErr (Option α))
    (ft : Nat) (payload : List Nat) (k : Nat) (acc : List α)
    (hplen : payload.length + 2 < 65536) (h6 : 6 ≤ k) (hk : k < 8 + payload.length) :
    pepLoop process ((encFrameBytes ft payload).take k) acc =
      .ok (acc, (encFrameBytes ft payload).take k) := by
  obtain ⟨m, rfl⟩ : ∃ m, k = m + 6 := ⟨k - 6, by omega⟩
  rw [encFrameBytes_eq, take_add_six]
  rw [pepLoop_headerBuffered]
  rw [List.length_take, List.length_append, u16le_length, readU16_mod_div hplen]
  omega

/-- Consuming one complete well-formed frame at the head of the delivery:
the frame is split off, its CRC-16 check passes, and the loop continues on
the rest with the processed payload appended when it decodes. -/
theorem pepLoop_complete_frame (process : List Nat → Except PepErr (Option α))
    (b2 l0 l1 : Nat) (payload rest : List Nat) (acc : List α)
    (hread : readU16 l0 l1 = payload.length + 2) :
    pepLoop process (0x5A :: 0x5A :: b2 :: 0x01 :: l0 :: l1 ::
        (payload ++ (u16le (crc16 ([0x5A, 0x5A, b2, 0x01, l0, l1] ++ payload)) ++ rest)))
        acc =
      match process payload with
      | .error _ => .error .processError
      | .ok none => pepLoop process rest acc
      | .ok (some pk) => pepLoop process rest (acc ++ [pk]) := by
  set c := crc16 ([0x5A, 0x5A, b2, 0x01, l0, l1] ++ payload) with hc
  set tail := payload ++ (u16le c ++ rest) with htail
  set data := (0x5A : Nat) :: 0x5A :: b2 :: 0x01 :: l0 :: l1 :: tail with hdata
  have htail_len : tail.length = payload.length + (2 + rest.length) := by
    rw [htail]; simp [u16le_length]
  have hdlen : data.length = tail.length + 6 := by rw [hdata]; simp
  have hb4 : byteAt data 4 = l0 := rfl
  have hb5 : byteAt data 5 = l1 := rfl
  have hde : 6 + readU16 (byteAt data 4) (byteAt data 5) = payload.length + 8 := by
    rw [hb4, hb5, hread]; omega
  have htake_pd : (data.take (6 + readU16 (byteAt data 4) (byteAt data 5) - 2)).drop 6 =
      payload := by
    have h1 : 6 + readU16 (byteAt data 4) (byteAt data 5) - 2 = payload.length + 6 := by omega
    rw [h1, hdata, Nat.add_comm payload.length 6]
    rw [show (6 : Nat) + payload.length = payload.length + 6 by omega] at *
    rw [take_add_six, htail, List.take_left, List.drop_succ_cons, List.drop_succ_cons,
      List.drop_succ_cons, List.drop_succ_cons, List.drop_succ_cons, List.drop_succ_cons,
      List.drop_zero]
  have htake_crc : (data.take (6 + readU16 (byteAt data 4) (byteAt data 5))).drop
      (6 + readU16 (byteAt data 4) (byteAt data 5) - 2) = u16le c := by
    rw [hde, show payload.length + 8 - 2 = payload.length + 6 by omega]
    rw [show payload.length + 8 = (payload.length + 2) + 6 by omega]
    rw [hdata, take_add_six, drop_add_six]
    rw [htail, ← List.append_assoc]
    rw [List.take_left' (by simp [u16le_length]), List.drop_left' (by simp [u16le_length])]
  have hdrop_rest : data.drop (6 + readU16 (byteAt data 4) (byteAt data 5)) = rest := by
    rw [hde, show payload.length + 8 = (payload.length + 2) + 6 by omega]
    rw [hdata, drop_add_six, htail, ← List.append_assoc]
    rw [List.drop_left' (by simp [u16le_length])]
  have hheader : data.take 6 = [0x5A, 0x5A, b2, 0x01, l0, l1] := rfl
  rw [pepLoop.eq_def]
  rw [if_neg (by rw [hdata]; simp), if_neg (by rw [hdata]; simp [List.isPrefixOf])]
  rw [dif_neg (by rw [hdlen]; omega)]
  rw [if_neg (by rw [hde, hdlen, htail_len]; omega)]
  rw [htake_pd, htake_crc, hdrop_rest, hheader]
  have hcrc_eq : readU16 (byteAt (u16le c) 0) (byteAt (u16le c) 1) = c := by
    have := crc16_lt ([0x5A, 0x5A, b2, 0x01, l0, l1] ++ payload)
    rw [← hc] at this
    simp only [u16le, byteAt, List.getD_cons_zero, List.getD_cons_succ]
    exact readU16_mod_div this
  rw [if_neg (by rw [hcrc_eq, ← hc]; simp)]

/-- `pepLoop_complete_frame` specialized to a frame built by
`EncPacket.toBytes` framing. -/
theorem pepLoop_encFrame (process : List Nat → Except PepErr (Option α))
    (ft : Nat) (payload rest : List Nat) (acc : List α)
    (hplen : payload.length + 2 < 65536) :
    pepLoop process (encFrameBytes ft payload ++ rest) acc =
      match process payload with
      | .error _ => .error .processError
      | .ok none => pepLoop process rest acc
      | .ok (some pk) => pepLoop process rest (acc ++ [pk]) := by
  have hread : readU16 ((payload.length + 2) % 256) ((payload.length + 2) / 256 % 256) =
      payload.length + 2 := readU16_mod_div hplen
  have h := pepLoop_complete_frame process (ft <<< 4) ((payload.length + 2) % 256)
    ((payload.length + 2) / 256 % 256) payload rest acc hread
  rw [encFrameBytes_eq]
  rw [← h]
  simp [u16le]

theorem pepLoop_encFrame_nil (process : List Nat → Except PepErr (Option α))
    (ft : Nat) (payload : List Nat) (acc : List α) (pk : α)
    (hplen : payload.length + 2 < 65536) (hp : process payload = .ok (some pk)) :
    pepLoop process (encFrameBytes ft payload) acc = .ok (acc ++ [pk], []) := by
  rw [← List.append_nil (encFrameBytes ft payload), pepLoop_encFrame _ _ _ _ _ hplen, hp]
  simp [pepLoop_nil]

/-- Claim C1 (code bug in the source): the claim says a frame failing its
CRC-16 check inside a multi-frame delivery is logged and skipped and the
remaining frames are still decoded.  In the source, the CRC-failure branch of
`parseEncPackets` crashes before reaching its `continue`: the `_LOGGER.error`
call evaluates `data[:6+payload_length]` and `payload_length` is an undefined
name, so a `NameError` escapes and the whole delivery (including every
already-decoded and remaining frame) is lost.  Concretely: a delivery holding
a corrupted frame (its last CRC byte changed from 0x0F to 0x10) followed by a
valid frame produces the `NameError` and no packets, while the second frame
alone decodes fine.  (A frame failing the 0x5A5A prefix check is not skipped
either: the loop returns the packets decoded so far and drops the rest.) -/
theorem claim_C1_crc_failure_aborts :
    parseEncPackets procId []
        ([0x5A, 0x5A, 0x00, 0x01, 0x03, 0x00, 0x11, 0xC7, 0x10] ++
         [0x5A, 0x5A, 0x00, 0x01, 0x04, 0x00, 0x22, 0x33, 0x1B, 0x03]) =
      (.error .nameError, []) ∧
    parseEncPackets procId []
        [0x5A, 0x5A, 0x00, 0x01, 0x04, 0x00, 0x22, 0x33, 0x1B, 0x03] =
      (.ok [[0x22, 0x33]], []) := by
  constructor
  · have hloop : pepLoop procId
        ([0x5A, 0x5A, 0x00, 0x01, 0x03, 0x00, 0x11, 0xC7, 0x10] ++
         [0x5A, 0x5A, 0x00, 0x01, 0x04, 0x00, 0x22, 0x33, 0x1B, 0x03]) [] =
        .error .nameError := by
      rw [pepLoop.eq_def]; decide
    simp only [parseEncPackets, List.nil_append]
    rw [if_neg (by decide), hloop]
  · have hshape : ([0x5A, 0x5A, 0x00, 0x01, 0x04, 0x00, 0x22, 0x33, 0x1B, 0x03] : List Nat) =
        encFrameBytes 0 [0x22, 0x33] := by decide
    simp only [parseEncPackets, List.nil_append]
    rw [if_neg (by decide), hshape,
      pepLoop_encFrame_nil procId 0 [0x22, 0x33] [] [0x22, 0x33] (by decide) rfl]
    simp

/-- Claim C2 counterexample: two valid serialized outer frames, concatenated
and split after the first byte.  The claim says any two-chunk split decodes
the same two frames; instead the first call raises `EncPacketParseError`
(total data below 8 bytes) and discards the byte without buffering it, the
second call then fails the prefix check and decodes nothing, while the
unsplit delivery decodes both frames. -/
theorem claim_C2_counterexample :
    parseEncPackets procId [] [0x5A] = (.error .tooSmall, []) ∧
    parseEncPackets procId []
        [0x5A, 0x00, 0x01, 0x03, 0x00, 0x11, 0xC7, 0x0F,
         0x5A, 0x5A, 0x00, 0x01, 0x04, 0x00, 0x22, 0x33, 0x1B, 0x03] =
      (.ok [], []) ∧
    parseEncPackets procId []
        ([0x5A, 0x5A, 0x00, 0x01, 0x03, 0x00, 0x11, 0xC7, 0x0F] ++
         [0x5A, 0x5A, 0x00, 0x01, 0x04, 0x00, 0x22, 0x33, 0x1B, 0x03]) =
      (.ok [[0x11], [0x22, 0x33]], []) := by
  refine ⟨by decide, ?_, ?_⟩
  · have hloop : pepLoop procId
        [0x5A, 0x00, 0x01, 0x03, 0x00, 0x11, 0xC7, 0x0F,
         0x5A, 0x5A, 0x00, 0x01, 0x04, 0x00, 0x22, 0x33, 0x1B, 0x03] ([] : List (List Nat)) =
        .ok ([], []) := by
      rw [pepLoop.eq_def]; decide
    simp only [parseEncPackets, List.nil_append]
    rw [if_neg (by decide), hloop]
  · have hshape1 : (([0x5A, 0x5A, 0x00, 0x01, 0x03, 0x00, 0x11, 0xC7, 0x0F] : List Nat) ++
        [0x5A, 0x5A, 0x00, 0x01, 0x04, 0x00, 0x22, 0x33, 0x1B, 0x03]) =
        encFrameBytes 0 [0x11] ++ encFrameBytes 0 [0x22, 0x33] := by decide
    simp only [parseEncPackets, List.nil_append]
    rw [if_neg (by decide), hshape1, pepLoop_encFrame procId 0 [0x11] _ [] (by decide)]
    simp only [procId]
    rw [pepLoop_encFrame_nil procId 0 [0x22, 0x33] _ [0x22, 0x33] (by decide) rfl]
    simp

/-- Claim C2 (amended): fragmentation robustness holds for the splits that
leave the first chunk at least 8 bytes long and do not cut 1 to 5 bytes into
the second frame (a split inside the trailing frame must keep its whole
6-byte header): for those splits the two successive calls decode the same two
frames as the single call, buffering a trailing partial frame; a first chunk
shorter than 8 bytes instead raises `EncPacketParseError` with the bytes
discarded (see the counterexample), and a split 1 to 5 bytes into the second
frame loses frames (prefix-check drop or `struct.error`). -/
theorem claim_C2_fragmentation (process : List Nat → Except PepErr (Option α))
    (ft1 ft2 : Nat) (pl1 pl2 : List Nat) (a1 a2 : α) (k : Nat)
    (hpl1 : pl1.length + 2 < 65536) (hpl2 : pl2.length + 2 < 65536)
    (hp1 : process pl1 = .ok (some a1)) (hp2 : process pl2 = .ok (some a2))
    (hk8 : 8 ≤ k)
    (hksplit : k ≤ (encFrameBytes ft1 pl1).length ∨
      (encFrameBytes ft1 pl1).length + 6 ≤ k)
    (hklt : k < (encFrameBytes ft1 pl1).length + (encFrameBytes ft2 pl2).length) :
    parseEncPackets process [] (encFrameBytes ft1 pl1 ++ encFrameBytes ft2 pl2) =
      (.ok [a1, a2], []) ∧
    ∃ ps1 ps2 buf,
      parseEncPackets process []
          ((encFrameBytes ft1 pl1 ++ encFrameBytes ft2 pl2).take k) = (.ok ps1, buf) ∧
      parseEncPackets process buf
          ((encFrameBytes ft1 pl1 ++ encFrameBytes ft2 pl2).drop k) = (.ok ps2, []) ∧
      ps1 ++ ps2 = [a1, a2] := by
  have hL1 : (encFrameBytes ft1 pl1).length = 8 + pl1.length := encFrameBytes_length _ _
  have hL2 : (encFrameBytes ft2 pl2).length = 8 + pl2.length := encFrameBytes_length _ _
  have hwhole : pepLoop process (encFrameBytes ft1 pl1 ++ encFrameBytes ft2 pl2)
      ([] : List α) = .ok ([a1, a2], []) := by
    rw [pepLoop_encFrame _ _ _ _ _ hpl1, hp1]
    simp only [List.nil_append]
    rw [pepLoop_encFrame_nil _ _ _ _ _ hpl2 hp2]
    simp
  have hone : parseEncPackets process [] (encFrameBytes ft1 pl1 ++ encFrameBytes ft2 pl2) =
      (.ok [a1, a2], []) := by
    simp only [parseEncPackets, List.nil_append]
    rw [if_neg (by rw [List.length_append, hL1, hL2]; omega), hwhole]
  refine ⟨hone, ?_⟩
  rcases hksplit with hkle | hkge
  · rcases Nat.lt_or_ge k (encFrameBytes ft1 pl1).length with hklt1 | hkeq
    · -- the split is strictly inside the first frame: everything is buffered
      refine ⟨[], [a1, a2], (encFrameBytes ft1 pl1).take k, ?_, ?_, rfl⟩
      · simp only [parseEncPackets, List.nil_append]
        rw [List.take_append_of_le_length hkle]
        rw [if_neg (by rw [List.length_take]; omega)]
        rw [pepLoop_incomplete _ ft1 _ _ _ hpl1 (by omega) (by omega)]
      · simp only [parseEncPackets]
        rw [List.drop_append_of_le_length hkle, ← List.append_assoc,
          List.take_append_drop]
        rw [if_neg (by rw [List.length_append, hL1, hL2]; omega), hwhole]
    · -- the split is exactly at the frame boundary
      have hkeq' : k = (encFrameBytes ft1 pl1).length := by omega
      subst hkeq'
      refine ⟨[a1], [a2], [], ?_, ?_, rfl⟩
      · simp only [parseEncPackets, List.nil_append]
        rw [List.take_left]
        rw [if_neg (by omega)]
        rw [pepLoop_encFrame_nil _ _ _ _ _ hpl1 hp1]
        simp
      · simp only [parseEncPackets, List.nil_append]
        rw [List.drop_left]
        rw [if_neg (by omega)]
        rw [pepLoop_encFrame_nil _ _ _ _ _ hpl2 hp2]
        simp
  · -- the split is at least 6 bytes into the second frame
    have hm6 : 6 ≤ k - (encFrameBytes ft1 pl1).length := by omega
    have hmlt : k - (encFrameBytes ft1 pl1).length < 8 + pl2.length := by omega
    refine ⟨[a1], [a2], (encFrameBytes ft2 pl2).take (k - (encFrameBytes ft1 pl1).length),
      ?_, ?_, rfl⟩
    · simp only [parseEncPackets, List.nil_append]
      rw [List.take_append_eq_append_take, List.take_of_length_le (by omega)]
      rw [if_neg (by rw [List.length_append, List.length_take]; omega)]
      rw [pepLoop_encFrame _ _ _ _ _ hpl1, hp1]
      simp only [List.nil_append]
      rw [pepLoop_incomplete _ ft2 _ _ _ hpl2 hm6 hmlt]
    · simp only [parseEncPackets]
      have hdrop : (encFrameBytes ft1 pl1 ++ encFrameBytes ft2 pl2).drop k =
          (encFrameBytes ft2 pl2).drop (k - (encFrameBytes ft1 pl1).length) := by
        rw [← List.take_append_drop (encFrameBytes ft1 pl1).length
          (encFrameBytes ft1 pl1 ++ encFrameBytes ft2 pl2)]
        rw [List.take_left, List.drop_left]
        rw [List.drop_append_eq_append_drop]
        rw [List.drop_of_length_le (by omega), List.nil_append]
      rw [hdrop, List.take_append_drop]
      rw [if_neg (by omega)]
      rw [pepLoop_encFrame_nil _ _ _ _ _ hpl2 hp2]
      simp

theorem diffWrite_spec (o : Option Int) (w : Int) :
    (diffWrite o w).2 = true ↔ (diffWrite o w).1 ≠ o := by
  by_cases h : o = some w <;> simp [diffWrite, h]
  exact fun hc => h hc.symm

theorem diffWriteNat_spec (o n : Nat) :
    (diffWriteNat o n).2 = true ↔ (diffWriteNat o n).1 ≠ o := by
  by_cases h : o = n <;> simp [diffWriteNat, h]
  omega

theorem diffWriteList_spec (olds : List (Option Int)) (ws : List Int) :
    (diffWriteList olds ws).2 = true ↔ (diffWriteList olds ws).1 ≠ olds := by
  induction ws generalizing olds with
  | nil => simp [diffWriteList]
  | cons w ws ih =>
    cases olds with
    | nil => simp [diffWriteList]
    | cons o os =>
      have h1 := diffWrite_spec o w
      have h2 := ih os
      simp only [diffWriteList, Bool.or_eq_true, h1, h2, Ne, List.cons.injEq, not_and_or]

/-- `updateLoad` changes exactly the circuit fields, and reports a change
exactly when one of them changed. -/
theorem updateLoad_spec (st : Shp2State) (li : Option LoadInfo) :
    ((updateLoad st li).2 = true ↔
      ((updateLoad st li).1.circuit_power ≠ st.circuit_power ∨
       (updateLoad st li).1.circuit_current ≠ st.circuit_current)) ∧
    (updateLoad st li).1.grid_power = st.grid_power ∧
    (updateLoad st li).1.in_use_power = st.in_use_power ∧
    (updateLoad st li).1.channel_power = st.channel_power ∧
    (updateLoad st li).1.error_count = st.error_count ∧
    (updateLoad st li).1.battery_level = st.battery_level := by
  cases li with
  | none => simp [updateLoad]
  | some li =>
    have h1 := diffWriteList_spec st.circuit_power li.hall1_watt
    have h2 := diffWriteList_spec st.circuit_current li.hall1_curr
    simp only [updateLoad, Bool.or_eq_true, h1, h2]
    and_intros <;> first | rfl | trivial | tauto

/-- `updateWatt` changes exactly the grid/channel/in-use fields, and reports a
change exactly when one of them changed. -/
theorem updateWatt_spec (st : Shp2State) (wi : Option WattInfo) :
    ((updateWatt st wi).2 = true ↔
      ((updateWatt st wi).1.grid_power ≠ st.grid_power ∨
       (updateWatt st wi).1.channel_power ≠ st.channel_power ∨
       (updateWatt st wi).1.in_use_power ≠ st.in_use_power)) ∧
    (updateWatt st wi).1.circuit_power = st.circuit_power ∧
    (updateWatt st wi).1.circuit_current = st.circuit_current ∧
    (updateWatt st wi).1.error_count = st.error_count ∧
    (updateWatt st wi).1.battery_level = st.battery_level := by
  cases wi with
  | none => simp [updateWatt]
  | some wi =>
    have hc := diffWriteList_spec st.channel_power wi.ch_watt
    cases hg : wi.grid_watt with
    | none =>
      cases ha : wi.all_hall_watt with
      | none =>
        have h0 := diffWrite_spec st.grid_power 0
        simp only [updateWatt, hg, ha, Bool.or_eq_true, h0, hc]
        and_intros <;> first | rfl | trivial | tauto
      | some w =>
        have h0 := diffWrite_spec st.grid_power 0
        have hi := diffWrite_spec st.in_use_power w
        simp only [updateWatt, hg, ha, Bool.or_eq_true, h0, hc, hi]
        and_intros <;> first | rfl | trivial | tauto
    | some gw =>
      cases ha : wi.all_hall_watt with
      | none =>
        have h0 := diffWrite_spec st.grid_power gw
        simp only [updateWatt, hg, ha, Bool.or_eq_true, h0, hc]
        and_intros <;> first | rfl | trivial | tauto
      | some w =>
        have h0 := diffWrite_spec st.grid_power gw
        have hi := diffWrite_spec st.in_use_power w
        simp only [updateWatt, hg, ha, Bool.or_eq_true, h0, hc, hi]
        and_intros <;> first | rfl | trivial | tauto

/-- `updateBackup` changes exactly the error count and battery level, and
reports a change exactly when one of them changed. -/
theorem updateBackup_spec (st : Shp2State) (info : BackupIncreInfo) :
    ((updateBackup st info).2 = true ↔
      ((updateBackup st info).1.error_count ≠ st.error_count ∨
       (updateBackup st info).1.battery_level ≠ st.battery_level)) ∧
    (updateBackup st info).1.circuit_power = st.circuit_power ∧
    (updateBackup st info).1.circuit_current = st.circuit_current ∧
    (updateBackup st info).1.grid_power = st.grid_power ∧
    (updateBackup st info).1.in_use_power = st.in_use_power ∧
    (updateBackup st info).1.channel_power = st.channel_power := by
  cases he : info.errcode with
  | none =>
    cases hb : info.backup_bat_per with
    | none =>
      simp only [updateBackup, he, hb, Bool.or_eq_true]
      and_intros <;> first | rfl | trivial | tauto
    | some b =>
      have h2 := diffWrite_spec st.battery_level b
      simp only [updateBackup, he, hb, Bool.or_eq_true, h2]
      and_intros <;> first | rfl | trivial | tauto
  | some e =>
    cases hb : info.backup_bat_per with
    | none =>
      have h1 := diffWriteNat_spec st.error_count
        ((e.err_code.filter (fun x => x ≠ [0, 0, 0, 0, 0, 0, 0, 0])).length)
      simp only [updateBackup, he, hb, Bool.or_eq_true, h1]
      and_intros <;> first | rfl | trivial | tauto
    | some b =>
      have h1 := diffWriteNat_spec st.error_count
        ((e.err_code.filter (fun x => x ≠ [0, 0, 0, 0, 0, 0, 0, 0])).length)
      have h2 := diffWrite_spec st.battery_level b
      simp only [updateBackup, he, hb, Bool.or_eq_true, h1, h2]
      and_intros <;> first | rfl | trivial | tauto

/-- The `updated` flag of `data_parse` is set exactly when the processing
changed the stored telemetry. -/
theorem shp2DataParse_updated_iff (ptDec : List Nat → ProtoTime)
    (ppDec : List Nat → ProtoPushAndSet) (st : Shp2State) (pkt : Packet) :
    ((shp2DataParse ptDec ppDec st pkt).2.2 = true ↔
      (shp2DataParse ptDec ppDec st pkt).1 ≠ st) := by
  by_cases hroute : pkt.src = 0x0B ∧ pkt.cmd_set = 0x0C
  · by_cases hc1 : pkt.cmd_id = 0x01
    · simp only [shp2DataParse, hroute, hc1, true_and, if_true]
      obtain ⟨hA1, hAg, hAi, hAc, hAe, hAb⟩ :=
        updateLoad_spec st (ptDec pkt.payload).load_info
      obtain ⟨hB1, hBcp, hBcc, hBec, hBbl⟩ :=
        updateWatt_spec (updateLoad st (ptDec pkt.payload).load_info).1
          (ptDec pkt.payload).watt_info
      rw [Bool.or_eq_true, hA1, hB1]
      constructor
      · rintro (h | h) heq
        · rcases h with h | h
          · exact h (hBcp.symm.trans (congrArg Shp2State.circuit_power heq))
          · exact h (hBcc.symm.trans (congrArg Shp2State.circuit_current heq))
        · rcases h with h | h | h
          · exact h ((congrArg Shp2State.grid_power heq).trans hAg.symm)
          · exact h ((congrArg Shp2State.channel_power heq).trans hAc.symm)
          · exact h ((congrArg Shp2State.in_use_power heq).trans hAi.symm)
      · intro hne
        by_contra hno
        push_neg at hno
        obtain ⟨⟨g1, g2⟩, g3, g4, g5⟩ := hno
        exact hne (Shp2State.ext (hBcp.trans g1) (hBcc.trans g2) (g3.trans hAg)
          (g5.trans hAi) (g4.trans hAc) (hBec.trans hAe) (hBbl.trans hAb))
    · by_cases hc2 : pkt.cmd_id = 0x20
      · simp only [shp2DataParse, hroute, true_and, if_true]
        rw [if_neg hc1, if_pos hc2]
        set b := (ppDec pkt.payload).backup_incre_info with hb
        cases b with
        | none => simp
        | some info =>
          obtain ⟨hC1, hCcp, hCcc, hCg, hCi, hCch⟩ := updateBackup_spec st info
          simp only [hC1]
          constructor
          · rintro (h | h) heq
            · exact h (congrArg Shp2State.error_count heq)
            · exact h (congrArg Shp2State.battery_level heq)
          · intro hne
            by_contra hno
            push_neg at hno
            obtain ⟨g1, g2⟩ := hno
            exact hne (Shp2State.ext hCcp hCcc hCg hCi hCch g1 g2)
      · simp only [shp2DataParse, hroute, true_and, if_true]
        rw [if_neg hc1, if_neg hc2]
        simp
  · simp [shp2DataParse, hroute]

/-- Claim C3: for every inner Frame with version 3 whose fields fit their wire
widths (one byte for src, dst, dsrc, ddst, cmd_set, cmd_id; four bytes for
seq; payload length below 2^16), `Packet.fromBytes` applied to
`Packet.toBytes` succeeds and reproduces the original fields.  (The product
id is not on the wire; every field listed by the claim round-trips.) -/
theorem claim_C3_roundtrip (p : Packet) (hver : p.version = 3)
    (hsrc : p.src < 256) (hdst : p.dst < 256) (hdsrc : p.dsrc < 256) (hddst : p.ddst < 256)
    (hcs : p.cmd_set < 256) (hci : p.cmd_id < 256)
    (hseq : p.seq < 4294967296) (hplen : p.payload.length < 65536) :
    ∃ q, Packet.fromBytes p.toBytes = some q ∧
      q.src = p.src ∧ q.dst = p.dst ∧ q.cmd_set = p.cmd_set ∧ q.cmd_id = p.cmd_id ∧
      q.payload = p.payload ∧ q.dsrc = p.dsrc ∧ q.ddst = p.ddst ∧
      q.version = p.version ∧ q.seq = p.seq :=
  ⟨_, p.fromBytes_toBytes hver hsrc hdst hdsrc hddst hcs hci hseq hplen,
    rfl, rfl, rfl, rfl, rfl, rfl, rfl, rfl, rfl⟩

/-- Witness for claim C3 at a concrete version-3 frame. -/
theorem claim_C3_roundtrip_witness :
    ∃ q, Packet.fromBytes
        (Packet.toBytes ⟨0x21, 0x35, 0x01, 0x01, [0xAB, 0xCD], 0x35, 0x89, 3, 5, 0⟩) =
        some q ∧
      q.src = 0x21 ∧ q.dst = 0x35 ∧ q.cmd_set = 0x01 ∧ q.cmd_id = 0x01 ∧
      q.payload = [0xAB, 0xCD] ∧ q.dsrc = 0x35 ∧ q.ddst = 0x89 ∧
      q.version = 3 ∧ q.seq = 5 :=
  claim_C3_roundtrip ⟨0x21, 0x35, 0x01, 0x01, [0xAB, 0xCD], 0x35, 0x89, 3, 5, 0⟩
    rfl (by decide) (by decide) (by decide) (by decide) (by decide) (by decide)
    (by decide) (by decide)

/-- Claim C4 (code bug in the source): the claim (and the spec) says
`getEcdhTypeSize` has four known curve-type-to-length mappings (1, 2, 3, 4)
with a default of 40 otherwise.  The source arm `case 3,4: return 64` is a
Python sequence pattern, which can never match the integer argument, so the
function actually returns the default 40 for curve types 3 and 4 (the values
the dead arm and the spec intend are in `getEcdhTypeSizeIntended`). -/
theorem claim_C4_curve34_defaults :
    getEcdhTypeSize 1 = 52 ∧ getEcdhTypeSize 2 = 56 ∧
    getEcdhTypeSize 3 = 40 ∧ getEcdhTypeSize 4 = 40 ∧ getEcdhTypeSize 5 = 40 ∧
    getEcdhTypeSizeIntended 3 = 64 ∧ getEcdhTypeSizeIntended 4 = 64 := by
  decide

/-- Claim C5 counterexample: with the encryption key absent but the IV
present, `encryptPayload` does not return the payload unmodified — the
`AES.new(None, ...)` call raises a `TypeError` (the source guard is
`key == None and iv == None`, not `or`). -/
theorem claim_C5_counterexample :
    EncPacket.encryptPayload (fun _ _ d => d) []
      ⟨0, 0, [0x01], 0, 0, 0, none, some (List.replicate 16 0)⟩ ≠ .ok [0x01] :=
  fun h => Except.noConfusion h

/-- Claim C5 (amended): the serialized payload is returned unmodified iff
BOTH the key and the IV are absent; with both present it is the AES-CBC
encryption of the PKCS#7-padded payload; with only the IV present the call
raises a `TypeError`; with only the key present pycryptodome encrypts under a
freshly generated random IV instead of returning the payload unmodified. -/
theorem claim_C5_amended (aes : List Nat → List Nat → List Nat → List Nat)
    (freshIV : List Nat) (p : EncPacket) :
    (p.enc_key = none ∧ p.iv = none →
      EncPacket.encryptPayload aes freshIV p = .ok p.payload) ∧
    (∀ k iv, p.enc_key = some k → p.iv = some iv →
      EncPacket.encryptPayload aes freshIV p = .ok (aes k iv (pad16 p.payload))) ∧
    (∀ iv, p.enc_key = none → p.iv = some iv →
      EncPacket.encryptPayload aes freshIV p = .error .typeError) ∧
    (∀ k, p.enc_key = some k → p.iv = none →
      EncPacket.encryptPayload aes freshIV p = .ok (aes k freshIV (pad16 p.payload))) := by
  cases hk : p.enc_key <;> cases hiv : p.iv <;>
    simp [EncPacket.encryptPayload, hk, hiv]

/-- Witness for claim C5 (amended) at a concrete packet with both key and IV
present. -/
theorem claim_C5_amended_witness :
    EncPacket.encryptPayload (fun _ _ d => d) []
      ⟨0, 0, [0x01], 0, 0, 0, some (List.replicate 16 1), some (List.replicate 16 2)⟩ =
      .ok (pad16 [0x01]) :=
  (claim_C5_amended (fun _ _ d => d) []
    ⟨0, 0, [0x01], 0, 0, 0, some (List.replicate 16 1), some (List.replicate 16 2)⟩).2.1
    (List.replicate 16 1) (List.replicate 16 2) rfl rfl

/-- Claim C6: in `autoAuthenticationHandler`, a decoded single-byte response
payload equal to 0x00 proceeds to listening, and any other payload raises
the fatal `AuthFailedError` (nothing in the handler retries — the exception
escapes the handler). -/
theorem claim_C6_auth_response (packets : List Packet) (p : Packet)
    (hhead : packets.head? = some p) :
    (p.payload = [0x00] → autoAuthenticationHandler packets = .listening) ∧
    (p.payload ≠ [0x00] → autoAuthenticationHandler packets = .authFailed) := by
  cases packets with
  | nil => simp at hhead
  | cons q rest =>
    simp only [List.head?_cons, Option.some.injEq] at hhead
    subst hhead
    constructor
    · intro h; simp [autoAuthenticationHandler, h]
    · intro h; simp [autoAuthenticationHandler, h]

/-- Witness for claim C6: a 0x00 payload proceeds to listening and a 0x01
payload fails authentication. -/
theorem claim_C6_auth_response_witness :
    autoAuthenticationHandler [⟨0x21, 0x35, 0x01, 0x86, [0x00], 0x35, 0x89, 3, 0, 0⟩] =
      .listening ∧
    autoAuthenticationHandler [⟨0x21, 0x35, 0x01, 0x86, [0x01], 0x35, 0x89, 3, 0, 0⟩] =
      .authFailed :=
  ⟨(claim_C6_auth_response [⟨0x21, 0x35, 0x01, 0x86, [0x00], 0x35, 0x89, 3, 0, 0⟩]
      ⟨0x21, 0x35, 0x01, 0x86, [0x00], 0x35, 0x89, 3, 0, 0⟩ rfl).1 rfl,
   (claim_C6_auth_response [⟨0x21, 0x35, 0x01, 0x86, [0x01], 0x35, 0x89, 3, 0, 0⟩]
      ⟨0x21, 0x35, 0x01, 0x86, [0x01], 0x35, 0x89, 3, 0, 0⟩ rfl).2 (by decide)⟩

/-- Claim C7: the authentication payload of `autoAuthentication` is the
uppercase-hex encoding of the MD5 digest of the ASCII concatenation of the
user id and the device serial number; in particular user id "12345" and
serial "Y711ABCDEFGH" produce the ASCII bytes of
"D886DBEE71F5B1212525D569CB123AA5", the uppercase-hex MD5 digest of
"12345Y711ABCDEFGH".  (`str.encode('ASCII')` requires every character below
128; both literals satisfy that.) -/
theorem claim_C7_auth_payload :
    (∀ user_id dev_sn : String, autoAuthPayload user_id dev_sn =
      upperHexBytes (md5 (asciiBytes (user_id ++ dev_sn)))) ∧
    autoAuthPayload "12345" "Y711ABCDEFGH" =
      asciiBytes "D886DBEE71F5B1212525D569CB123AA5" := by
  exact ⟨fun _ _ => rfl, by decide⟩

/-- Claim C8: `NewDevice` yields no device without the 0xB5B5
manufacturer-data entry; otherwise it extracts the serial number (bytes 1..16
of the entry) and instantiates the first registered variant whose
serial-number-prefix predicate matches — Delta Pro Ultra for prefix "Y711",
then Smart Home Panel 2 for prefix "HD31" — and yields no device when
neither matches. -/
theorem claim_C8_dispatch (md : List Nat) :
    NewDevice none = none ∧
    NewDevice (some md) =
      (if dpu.check ((md.drop 1).take 16) then some (dpu, (md.drop 1).take 16)
       else if shp2.check ((md.drop 1).take 16) then some (shp2, (md.drop 1).take 16)
       else none) := by
  refine ⟨rfl, ?_⟩
  simp only [NewDevice, deviceModules]
  cases h1 : dpu.check ((md.drop 1).take 16) <;>
    cases h2 : shp2.check ((md.drop 1).take 16) <;>
      simp only [List.drop_one] at h1 h2 <;>
        simp [List.find?, h1, h2]

/-- Claim C9: processing one decoded telemetry frame writes a field only when
the decoded value differs from the stored one — captured by: the `updated`
flag is set iff the state changed — and the callback loop then invokes every
registered callback exactly once when some field changed and no callback at
all otherwise.  The length hypotheses restrict to the source domain: a
decoded list longer than the stored one would raise `IndexError`. -/
theorem claim_C9_telemetry_updates {κ : Type} [DecidableEq κ]
    (ptDec : List Nat → ProtoTime) (ppDec : List Nat → ProtoPushAndSet)
    (st : Shp2State) (pkt : Packet)
    (hli : ∀ li, (ptDec pkt.payload).load_info = some li →
      li.hall1_watt.length ≤ st.circuit_power.length ∧
      li.hall1_curr.length ≤ st.circuit_current.length)
    (hwi : ∀ wi, (ptDec pkt.payload).watt_info = some wi →
      wi.ch_watt.length ≤ st.channel_power.length)
    (cbs : List κ) (hnodup : cbs.Nodup) :
    ((shp2DataParse ptDec ppDec st pkt).1 = st →
      firedCallbacks cbs (shp2DataParse ptDec ppDec st pkt).2.2 = []) ∧
    ((shp2DataParse ptDec ppDec st pkt).1 ≠ st →
      ∀ c ∈ cbs, (firedCallbacks cbs (shp2DataParse ptDec ppDec st pkt).2.2).count c = 1) := by
  have hiff := shp2DataParse_updated_iff ptDec ppDec st pkt
  constructor
  · intro heq
    have : (shp2DataParse ptDec ppDec st pkt).2.2 = false := by
      cases hu : (shp2DataParse ptDec ppDec st pkt).2.2
      · rfl
      · exact absurd heq (hiff.mp hu)
    rw [this, firedCallbacks, if_neg (by simp)]
  · intro hne c hc
    rw [hiff.mpr hne, firedCallbacks, if_pos rfl]
    exact List.count_eq_one_of_mem hnodup hc

/-- Witness for claim C9: a frame whose decoded battery level differs from
the stored one fires both registered callbacks once; feeding it when the
value is already stored fires none. -/
theorem claim_C9_telemetry_updates_witness :
    ((shp2DataParse (fun _ => ⟨none, none⟩)
        (fun _ => ⟨some ⟨none, some 55⟩⟩) shp2Init
        ⟨0x0B, 0x35, 0x0C, 0x20, [], 0x35, 0x89, 3, 0, 0⟩).1 = shp2Init →
      firedCallbacks [0, 1] (shp2DataParse (fun _ => ⟨none, none⟩)
        (fun _ => ⟨some ⟨none, some 55⟩⟩) shp2Init
        ⟨0x0B, 0x35, 0x0C, 0x20, [], 0x35, 0x89, 3, 0, 0⟩).2.2 = []) ∧
    ((shp2DataParse (fun _ => ⟨none, none⟩)
        (fun _ => ⟨some ⟨none, some 55⟩⟩) shp2Init
        ⟨0x0B, 0x35, 0x0C, 0x20, [], 0x35, 0x89, 3, 0, 0⟩).1 ≠ shp2Init →
      ∀ c ∈ [0, 1], (firedCallbacks [0, 1] (shp2DataParse (fun _ => ⟨none, none⟩)
        (fun _ => ⟨some ⟨none, some 55⟩⟩) shp2Init
        ⟨0x0B, 0x35, 0x0C, 0x20, [], 0x35, 0x89, 3, 0, 0⟩).2.2).count c = 1) :=
  claim_C9_telemetry_updates (fun _ => ⟨none, none⟩) (fun _ => ⟨some ⟨none, some 55⟩⟩)
    shp2Init ⟨0x0B, 0x35, 0x0C, 0x20, [], 0x35, 0x89, 3, 0, 0⟩
    (fun li h => Option.noConfusion h)
    (fun wi h => Option.noConfusion h)
    [0, 1] (by decide)

/-- Claim C10: for inputs of at least 20 bytes passing the prefix and header
CRC-8 checks whose version byte is not 3, `Packet.fromBytes` performs no
check relating the declared 16-bit payload length to the input length: when
the declared length exceeds the bytes present after the 18-byte header, the
decode still succeeds and the returned payload is silently truncated to the
bytes available. -/
theorem claim_C10_truncation (data : List Nat)
    (hlen : 20 ≤ data.length)
    (hpre : byteAt data 0 = 0xAA)
    (hver : byteAt data 1 ≠ 3)
    (hcrc : crc8 (data.take 4) = byteAt data 4)
    (hdecl : data.length - 18 < readU16 (byteAt data 2) (byteAt data 3)) :
    ∃ q, Packet.fromBytes data = some q ∧
      q.payload.length ≤ data.length - 18 ∧
      q.payload.length < readU16 (byteAt data 2) (byteAt data 3) := by
  simp only [Packet.fromBytes]
  rw [if_neg (by omega), if_neg (by simp [hpre]),
    if_neg (by rintro ⟨h3, -⟩; exact hver h3), if_neg (by simp [hcrc])]
  have hpos : readU16 (byteAt data 2) (byteAt data 3) > 0 := by omega
  rw [if_pos hpos]
  refine ⟨_, rfl, ?_, ?_⟩ <;>
  · dsimp only
    split
    · simp only [List.length_take, List.length_drop]; omega
    · simp only [List.length_take, List.length_drop]; omega

/-- Witness for claim C10: a 20-byte version-0 input declaring a 255-byte
payload decodes to a packet whose payload holds only the 2 available bytes. -/
theorem claim_C10_truncation_witness :
    ∃ q, Packet.fromBytes
        [0xAA, 0x00, 0xFF, 0x00, 0xB4, 0, 0, 0, 0, 0, 0, 0, 0, 0, 0, 0, 0, 0, 0x55, 0x66] =
        some q ∧
      q.payload.length ≤ 2 ∧ q.payload.length < 255 :=
  claim_C10_truncation
    [0xAA, 0x00, 0xFF, 0x00, 0xB4, 0, 0, 0, 0, 0, 0, 0, 0, 0, 0, 0, 0, 0, 0x55, 0x66]
    (by decide) (by decide) (by decide) (by decide) (by decide)

/-- Witness for claim C2 (amended): the concrete two valid frames of the
counterexample, split exactly at the frame boundary (k = 9), decode to the
same two frames over the two calls as in one call. -/
theorem claim_C2_fragmentation_witness :
    parseEncPackets procId [] (encFrameBytes 0 [0x11] ++ encFrameBytes 0 [0x22, 0x33]) =
      (.ok [[0x11], [0x22, 0x33]], []) ∧
    ∃ ps1 ps2 buf,
      parseEncPackets procId []
          ((encFrameBytes 0 [0x11] ++ encFrameBytes 0 [0x22, 0x33]).take 9) = (.ok ps1, buf) ∧
      parseEncPackets procId buf
          ((encFrameBytes 0 [0x11] ++ encFrameBytes 0 [0x22, 0x33]).drop 9) = (.ok ps2, []) ∧
      ps1 ++ ps2 = [[0x11], [0x22, 0x33]] :=
  claim_C2_fragmentation procId 0 0 [0x11] [0x22, 0x33] [0x11] [0x22, 0x33] 9
    (by decide) (by decide) rfl rfl (by decide) (Or.inl (by decide)) (by decide)

end EfBle
